import Mathlib

/-!
Verification of the Tic Tac Toe backend (`src/api/game_logic.py`,
`src/api/main.py`, `src/api/database.py`, `src/api/schemas.py`).

The game engine is embedded as pure Lean functions over
`Board := List (List (Option Player))`, mirroring the Python
`List[List[Optional[str]]]` representation.  The SQL store of
`database.py` is embedded as a list of game records with explicit
state passing; the FastAPI handlers of `main.py` become functions
from store to store.
-/

/-- The `Player` enum from `game_logic.py`. -/
inductive Player where
  | X
  | O
deriving DecidableEq, Repr

/-- The `GameStatus` enum from `game_logic.py`. -/
inductive GameStatus where
  | IN_PROGRESS
  | DRAW
  | WINNER_X
  | WINNER_O
deriving DecidableEq, Repr

/-- A board cell: `Optional[str]` restricted to the two player marks. -/
abbrev Cell := Option Player

/-- The board type: `List[List[Optional[str]]]`, a list of rows. -/
abbrev Board := List (List Cell)

/-- Python `initial_board()`: a fresh 3x3 grid of `None`. -/
def initial_board : Board :=
  List.replicate 3 (List.replicate 3 (none : Cell))

/-- Reading `board[i][j]`; Python indexing on the 3x3 boards the code
manipulates, rendered total with default `none`. -/
def cell (b : Board) (i j : Nat) : Cell :=
  (b.getD i []).getD j none

/-- The count `sum(cell == p for row in board for cell in row)` used by
`get_next_player`. -/
def count_marks (p : Player) (b : Board) : Nat :=
  (b.map (fun row => row.countP (fun c => c == some p))).sum

/-- Python `get_next_player(board)`: `Player.O if x_count > o_count else Player.X`. -/
def get_next_player (b : Board) : Player :=
  if count_marks Player.O b < count_marks Player.X b then Player.O else Player.X

/-- The 8 lines scanned by `check_winner`, in its scanning order:
`list(lines) + list(cols) + diags` (rows 0-2, then columns 0-2, then the
main diagonal, then the anti-diagonal). -/
def winning_lines : List (List (Nat × Nat)) :=
  ((List.range 3).map (fun i => (List.range 3).map (fun j => (i, j))))
    ++ ((List.range 3).map (fun i => (List.range 3).map (fun j => (j, i))))
    ++ [(List.range 3).map (fun i => (i, i)),
        (List.range 3).map (fun i => (i, 2 - i))]

/-- The loop body of `check_winner` for the marks of one line
`line_marks = [board[i][j] for i, j in line]`: if `line_marks[0]` is
truthy and all cells equal it, return `Player.X` / `Player.O` according
to the mark; `none` means the loop moves on to the next line. -/
def line_step (line_marks : List Cell) : Option Player :=
  match line_marks.headD none with
  | none => none
  | some m =>
    if line_marks.all (fun c => c == some m) then
      if m == Player.X then some Player.X
      else if m == Player.O then some Player.O
      else none
    else none

/-- The `for line_indices in list(lines) + list(cols) + diags` loop of
`check_winner`, with its early `return` on a found winner. -/
def scan_lines (b : Board) : List (List (Nat × Nat)) → Option Player
  | [] => none
  | l :: rest =>
    match line_step (l.map (fun ij => cell b ij.1 ij.2)) with
    | some w => some w
    | none => scan_lines b rest

/-- Python `check_winner(board)`. -/
def check_winner (b : Board) : Option Player :=
  scan_lines b winning_lines

/-- Python `is_draw(board)`: `False` if any cell is `None`, else whether
`check_winner` returns `None`. -/
def is_draw (b : Board) : Bool :=
  if b.any (fun row => row.any (fun c => c == none)) then false
  else check_winner b == none

/-- Python `get_game_status(board)`: the `if winner == X / elif winner == O /
elif is_draw / else` chain. -/
def get_game_status (b : Board) : GameStatus :=
  let winner := check_winner b
  if winner == some Player.X then GameStatus.WINNER_X
  else if winner == some Player.O then GameStatus.WINNER_O
  else if is_draw b then GameStatus.DRAW
  else GameStatus.IN_PROGRESS

/-- The three error messages `play_move` can return
(`"Move out of bounds."`, `"Cell already taken."`,
`f"It is {expected_player} turn."`), as an enumeration; `wrongTurn`
carries the expected player interpolated into the message. -/
inductive MoveError where
  | outOfBounds
  | cellOccupied
  | wrongTurn (expected : Player)
deriving DecidableEq, Repr

/-- The functional row update `next_board = [r.copy() for r in board];
next_board[row][col] = player` on a 3x3 board. -/
def set_cell (b : Board) (r c : Nat) (p : Player) : Board :=
  b.set r ((b.getD r []).set c (some p))

/-- Python `play_move(board, row, col, player)`: returns
`(updated_board, error)`, `error = none` on success.  Row and column are
Python `int`s, hence `Int` here; indexing happens only after the bounds
check, so `toNat` is faithful. -/
def play_move (b : Board) (row col : Int) (p : Player) :
    Board × Option MoveError :=
  if row < 0 ∨ row > 2 ∨ col < 0 ∨ col > 2 then
    (b, some MoveError.outOfBounds)
  else if (cell b row.toNat col.toNat).isSome then
    (b, some MoveError.cellOccupied)
  else
    let expected := get_next_player b
    if p ≠ expected then (b, some (MoveError.wrongTurn expected))
    else (set_cell b row.toNat col.toNat p, none)

/-! ## The store layer: `database.py` and `main.py` -/

/-- A move dict `dict(player=..., row=..., col=...)` as appended to a
move list of a game by `make_move`, equally the `GameMoveRequest` schema. -/
structure GameMoveRequest where
  player : Player
  row : Int
  col : Int
deriving DecidableEq, Repr

/-- The `games` table row of `database.py`, decoded as `get_game`
returns it.  Timestamps are abstract instants (`Nat`), supplied by the
caller in place of `func.now()` / `datetime.utcnow()`. -/
structure GameRec where
  id : Int
  moves : List GameMoveRequest
  board : Board
  status : GameStatus
  winner : Option Player
  created_at : Option Nat
  finished_at : Option Nat
deriving DecidableEq, Repr

/-- The persistent store: the rows of the `games` table in insertion
order. -/
abbrev Store := List GameRec

/-- Python `get_game(game_id)`: `db.query(Game).filter(Game.id == game_id).first()`,
decoded to a record, `none` when absent. -/
def get_game (store : Store) (game_id : Int) : Option GameRec :=
  store.find? (fun g => g.id == game_id)

/-- The SQLite autoincrement id for a fresh row: one more than the
largest existing id (1 on an empty table). -/
def next_id (store : Store) : Int :=
  (store.map (fun g => g.id)).foldr max 0 + 1

/-- Python `create_game(moves, board, status, winner)`: inserts a fresh row and
returns (new store, its id); `created_at` is the server-side `now`. -/
def create_game (store : Store) (moves : List GameMoveRequest) (board : Board)
    (status : GameStatus) (winner : Option Player) (now : Nat) : Store × Int :=
  let gid := next_id store
  (store ++ [{ id := gid, moves := moves, board := board, status := status,
               winner := winner, created_at := some now, finished_at := none }],
   gid)

/-- Replace the first list element satisfying `p` by `f` of it (the
`filter(...).first()` row that `update_game` mutates). -/
def replaceFirst (p : GameRec → Bool) (f : GameRec → GameRec) :
    Store → Store
  | [] => []
  | g :: rest => if p g then f g :: rest else g :: replaceFirst p f rest

/-- Python `update_game(game_id, moves, board, status, winner, finished_at)`:
overwrites the fields of the matching row; `finished_at` is written only when
truthy (`if finished_at:`), otherwise the stored value is kept. -/
def update_game (store : Store) (game_id : Int) (moves : List GameMoveRequest)
    (board : Board) (status : GameStatus) (winner : Option Player)
    (finished_at : Option Nat) : Store :=
  replaceFirst (fun g => g.id == game_id)
    (fun g =>
      { g with
        moves := moves, board := board, status := status, winner := winner,
        finished_at := match finished_at with
          | some t => some t
          | none => g.finished_at })
    store

/-- Python `list_games(limit, offset)` of `database.py`:
`ORDER BY id DESC LIMIT limit OFFSET offset` — sort newest-first by id,
skip `offset` rows, return at most `limit` of the rest. -/
def list_games (store : Store) (limit offset : Nat) : Store :=
  (((List.insertionSort (fun a b => b.id ≤ a.id) store).drop offset).take limit)

/-- The `GameHistoryItem` schema: the summary projection (no board, no
moves). -/
structure GameHistoryItem where
  id : Int
  status : GameStatus
  winner : Option Player
  created_at : Option Nat
  finished_at : Option Nat
deriving DecidableEq, Repr

/-- Projection of a stored game to its `GameHistoryItem` summary, as in
the `list_game_history` handler. -/
def toHistoryItem (g : GameRec) : GameHistoryItem :=
  { id := g.id, status := g.status, winner := g.winner,
    created_at := g.created_at, finished_at := g.finished_at }

/-- The `GET /games/` handler `list_game_history(limit, offset)` of
`main.py`. -/
def list_game_history (store : Store) (limit offset : Nat) :
    List GameHistoryItem :=
  (list_games store limit offset).map toHistoryItem

/-- The `GameCreateRequest` schema: an optional `first_player` field
defaulting to `X`. -/
structure GameCreateRequest where
  first_player : Option Player := some Player.X
deriving DecidableEq, Repr

/-- The `POST /games/` handler `start_game(req)` of `main.py`: creates a
fresh game on the initial board and returns (new store, stored record).
The request body `req` is accepted but never read. -/
def start_game (store : Store) (req : GameCreateRequest) (now : Nat) :
    Store × Option GameRec :=
  let board := initial_board
  let moves : List GameMoveRequest := []
  let status := get_game_status board
  let res := create_game store moves board status none now
  (res.1, get_game res.1 res.2)

/-- Errors the `make_move` handler can answer with: 404 (`NotFound`),
400 `"Game is already finished."` (`gameFinished`), or the 400 carrying
the `play_move` rules-engine message (`moveRejected`). -/
inductive ApiError where
  | notFound
  | gameFinished
  | moveRejected (e : MoveError)
deriving DecidableEq, Repr

/-- The `POST /games/{game_id}/move/` handler `make_move` of `main.py`:
look the game up, refuse if terminal, run `play_move`, and on success
persist moves/board/status/winner (and `finished_at := now` when the new
status is terminal).  Returns the store after the call plus the error,
if any. -/
def make_move (store : Store) (game_id : Int) (req : GameMoveRequest)
    (now : Nat) : Store × Option ApiError :=
  match get_game store game_id with
  | none => (store, some ApiError.notFound)
  | some game =>
    if game.status == GameStatus.WINNER_X ∨ game.status == GameStatus.WINNER_O
        ∨ game.status == GameStatus.DRAW then
      (store, some ApiError.gameFinished)
    else
      match play_move game.board req.row req.col req.player with
      | (_, some e) => (store, some (ApiError.moveRejected e))
      | (updated_board, none) =>
        let moves := game.moves ++ [req]
        let new_status := get_game_status updated_board
        let new_winner :=
          if new_status == GameStatus.WINNER_X then some Player.X
          else if new_status == GameStatus.WINNER_O then some Player.O
          else none
        let finished_timestamp :=
          if new_status == GameStatus.WINNER_X ∨ new_status == GameStatus.WINNER_O
              ∨ new_status == GameStatus.DRAW then some now
          else none
        (update_game store game_id moves updated_board new_status new_winner
          finished_timestamp, none)

/-! ## Auxiliary notions used by the specification claims -/

/-- Well-formed board: the 3x3 shape the engine maintains. -/
abbrev WF (b : Board) : Prop :=
  b.length = 3 ∧ ∀ r ∈ b, r.length = 3

/-- The input constraint of `play_move`: row and col each in `[0, 2]`. -/
abbrev in_bounds (row col : Int) : Prop :=
  0 ≤ row ∧ row ≤ 2 ∧ 0 ≤ col ∧ col ≤ 2

/-- Every cell of the board is non-empty. -/
def all_filled (b : Board) : Bool :=
  b.all (fun row => row.all (fun c => c.isSome))

/-- Spec-side reading of one line: the mark of a line whose three cells
are non-empty and identical, else `none`. -/
def line_mark (marks : List Cell) : Option Player :=
  match marks with
  | [some p, some q, some r] => if p = q ∧ q = r then some p else none
  | _ => none

/-- Spec-side winner: the mark of the first line (in the order rows 0-2,
columns 0-2, main diagonal, anti-diagonal) whose three cells are
non-empty and identical; `none` when no such line exists. -/
def winner_by_first_line (b : Board) : Option Player :=
  winning_lines.findSome? (fun l => line_mark (l.map (fun ij => cell b ij.1 ij.2)))

/-- Run a sequence of `play_move` calls, `none` as soon as one fails. -/
def applyMoves (b : Board) : List (Player × Int × Int) → Option Board
  | [] => some b
  | (p, r, c) :: rest =>
    match play_move b r c p with
    | (b2, none) => applyMoves b2 rest
    | (_, some _) => none

/-- Boards reachable from `initial_board()` by successful `play_move`
calls. -/
inductive Reachable : Board → Prop where
  | init : Reachable initial_board
  | step {b : Board} {row col : Int} {p : Player} {b2 : Board} :
      Reachable b → play_move b row col p = (b2, none) → Reachable b2

/-- Terminal game statuses, as tested by the `make_move` handler. -/
abbrev terminal (s : GameStatus) : Prop :=
  s = GameStatus.WINNER_X ∨ s = GameStatus.WINNER_O ∨ s = GameStatus.DRAW

/-- Run a sequence of `make_move` calls against the store, keeping each
resulting store of each call and discarding its response. -/
def apply_calls (store : Store) : List (Int × GameMoveRequest × Nat) → Store
  | [] => store
  | (gid, req, now) :: rest => apply_calls (make_move store gid req now).1 rest

/-- A sample finished game record: X has completed the top row. -/
def finished_game_rec : GameRec :=
  { id := 1, moves := [],
    board := [[some Player.X, some Player.X, some Player.X],
              [some Player.O, some Player.O, none], [none, none, none]],
    status := GameStatus.WINNER_X, winner := some Player.X,
    created_at := some 0, finished_at := some 3 }

/-- A sample store of five games created in order, ids 1 to 5. -/
def sample_store : Store :=
  (List.range 5).map (fun (k : Nat) =>
    { id := (k : Int) + 1, moves := [], board := initial_board,
      status := GameStatus.IN_PROGRESS, winner := none,
      created_at := some (k + 1), finished_at := none })

/-! ## Helper lemmas -/

lemma line_step_three (a c1 c2 : Cell) :
    line_step [a, c1, c2] = line_mark [a, c1, c2] := by
  rcases a with _ | pa <;> rcases c1 with _ | pb <;> rcases c2 with _ | pc <;>
    first
      | rfl
      | (cases pa <;> rfl)
      | (cases pa <;> cases pb <;> rfl)
      | (cases pa <;> cases pb <;> cases pc <;> rfl)

lemma scan_lines_findSome (b : Board) :
    ∀ ls : List (List (Nat × Nat)), (∀ l ∈ ls, l.length = 3) →
      scan_lines b ls =
        ls.findSome? (fun l => line_mark (l.map (fun ij => cell b ij.1 ij.2))) := by
  intro ls h
  induction ls with
  | nil => rfl
  | cons l rest ih =>
    obtain ⟨x, y, z, rfl⟩ := List.length_eq_three.mp (h l (by simp))
    rw [List.findSome?_cons]
    show (match line_step ([x, y, z].map (fun ij => cell b ij.1 ij.2)) with
      | some w => some w
      | none => scan_lines b rest) = _
    simp only [List.map_cons, List.map_nil, line_step_three]
    cases line_mark [cell b x.1 x.2, cell b y.1 y.2, cell b z.1 z.2] with
    | none => simpa using ih (fun l hl => h l (by simp [hl]))
    | some p => rfl

lemma check_winner_eq_winner_by_first_line (b : Board) :
    check_winner b = winner_by_first_line b := by
  apply scan_lines_findSome
  decide

/-! ## Claim theorems -/

/-- C3: for every board, `check_winner` returns the mark of the first
line whose three cells are non-empty and identical, scanning rows 0-2,
columns 0-2, main diagonal, anti-diagonal in that order, and returns
`none` exactly when no such line exists. -/
theorem check_winner_first_matching_line (b : Board) :
    check_winner b = winner_by_first_line b
    ∧ (check_winner b = none ↔
        ∀ l ∈ winning_lines, line_mark (l.map (fun ij => cell b ij.1 ij.2)) = none) := by
  refine ⟨check_winner_eq_winner_by_first_line b, ?_⟩
  rw [check_winner_eq_winner_by_first_line b, winner_by_first_line,
    List.findSome?_eq_none_iff]

lemma all_filled_eq (b : Board) :
    all_filled b = !(b.any (fun row => row.any (fun c => c == none))) := by
  unfold all_filled
  induction b with
  | nil => rfl
  | cons row rest ih =>
    simp only [List.all_cons, List.any_cons, ih, Bool.not_or]
    congr 1
    induction row with
    | nil => rfl
    | cons c r ihr => cases c <;> simp [ihr]

/-- C4: `is_draw` holds exactly when every cell is non-empty and
`check_winner` finds no winner; `get_game_status` yields `WINNER_X` /
`WINNER_O` exactly when `check_winner` finds that winner, `DRAW` exactly
when there is no winner and `is_draw` holds, and `IN_PROGRESS`
otherwise — winner detection takes precedence over the draw check. -/
theorem is_draw_and_status_characterisation (b : Board) :
    (is_draw b = true ↔ all_filled b = true ∧ check_winner b = none)
    ∧ (get_game_status b = GameStatus.WINNER_X ↔ check_winner b = some Player.X)
    ∧ (get_game_status b = GameStatus.WINNER_O ↔ check_winner b = some Player.O)
    ∧ (get_game_status b = GameStatus.DRAW ↔
        check_winner b = none ∧ is_draw b = true)
    ∧ (get_game_status b = GameStatus.IN_PROGRESS ↔
        check_winner b = none ∧ is_draw b = false) := by
  have hdraw : is_draw b = true ↔ all_filled b = true ∧ check_winner b = none := by
    unfold is_draw
    by_cases h : b.any (fun row => row.any (fun c => c == none)) <;>
      simp [h, all_filled_eq]
  refine ⟨hdraw, ?_, ?_, ?_, ?_⟩ <;>
    · unfold get_game_status
      rcases hw : check_winner b with _ | p
      · by_cases hd : is_draw b <;> simp [hd, hw]
      · cases p <;> simp [is_draw, hw]

/-- C1: the `play_move` checks apply in the order out-of-bounds, cell
occupied, wrong turn; each error is returned exactly under the stated
condition, and the call succeeds exactly when all three pass. -/
theorem play_move_error_order (b : Board) (row col : Int) (p : Player)
    (hb : WF b) :
    ((play_move b row col p).2 = some MoveError.outOfBounds ↔ ¬ in_bounds row col)
    ∧ ((play_move b row col p).2 = some MoveError.cellOccupied ↔
        in_bounds row col ∧ cell b row.toNat col.toNat ≠ none)
    ∧ ((play_move b row col p).2 = some (MoveError.wrongTurn (get_next_player b)) ↔
        in_bounds row col ∧ cell b row.toNat col.toNat = none
          ∧ p ≠ get_next_player b)
    ∧ ((play_move b row col p).2 = none ↔
        in_bounds row col ∧ cell b row.toNat col.toNat = none
          ∧ p = get_next_player b) := by
  unfold play_move in_bounds
  by_cases h1 : row < 0 ∨ row > 2 ∨ col < 0 ∨ col > 2
  · have hni : ¬ (0 ≤ row ∧ row ≤ 2 ∧ 0 ≤ col ∧ col ≤ 2) := by omega
    simp [h1, hni]
  · have hi : 0 ≤ row ∧ row ≤ 2 ∧ 0 ≤ col ∧ col ≤ 2 := by
      push_neg at h1; omega
    rw [if_neg h1]
    by_cases h2 : (cell b row.toNat col.toNat).isSome
    · have hne : cell b row.toNat col.toNat ≠ none := by
        simp [Option.isSome_iff_ne_none] at h2; exact h2
      simp [h2, hi, hne]
    · have heq : cell b row.toNat col.toNat = none := by
        simp [Option.isSome_iff_ne_none] at h2; exact h2
      rw [if_neg h2]
      by_cases h3 : p = get_next_player b
      · simp [h3, hi, heq]
      · simp [h3, hi, heq]

/-- C1 witness: playing X at (0,0) on a board where X already sits at
(0,0) fails with `cellOccupied` (not `wrongTurn`). -/
theorem play_move_error_order_witness :
    WF [[some Player.X, none, none], [none, none, none], [none, none, none]]
    ∧ (play_move [[some Player.X, none, none], [none, none, none],
        [none, none, none]] 0 0 Player.X).2 = some MoveError.cellOccupied :=
  ⟨by decide,
   ((play_move_error_order [[some Player.X, none, none], [none, none, none],
      [none, none, none]] 0 0 Player.X (by decide)).2.1).mpr (by decide)⟩

lemma play_move_failure_frame {b : Board} {row col : Int} {p : Player}
    (h : (play_move b row col p).2 ≠ none) : (play_move b row col p).1 = b := by
  unfold play_move at *
  by_cases h1 : row < 0 ∨ row > 2 ∨ col < 0 ∨ col > 2
  · simp [h1]
  · rw [if_neg h1] at *
    by_cases h2 : (cell b row.toNat col.toNat).isSome
    · simp [h2]
    · rw [if_neg h2] at *
      by_cases h3 : p = get_next_player b
      · simp [h3] at h
      · simp [h3]

lemma play_move_success {b : Board} {row col : Int} {p : Player} {b2 : Board}
    (h : play_move b row col p = (b2, none)) :
    in_bounds row col ∧ cell b row.toNat col.toNat = none ∧
      p = get_next_player b ∧ b2 = set_cell b row.toNat col.toNat p := by
  unfold play_move at h
  by_cases h1 : row < 0 ∨ row > 2 ∨ col < 0 ∨ col > 2
  · rw [if_pos h1] at h; simp at h
  · rw [if_neg h1] at h
    by_cases h2 : (cell b row.toNat col.toNat).isSome
    · rw [if_pos h2] at h; simp at h
    · rw [if_neg h2] at h
      by_cases h3 : p = get_next_player b
      · rw [if_neg (by simpa using h3)] at h
        refine ⟨by unfold in_bounds; omega, ?_, h3, ?_⟩
        · simpa [Option.isSome_iff_ne_none] using h2
        · exact (Prod.mk.injEq _ _ _ _ ▸ h).1.symm
      · rw [if_pos (by simpa using h3)] at h; simp at h

lemma WF_row_length {b : Board} (hb : WF b) {i : Nat} (hi : i < 3) :
    (b.getD i []).length = 3 := by
  have hlen : i < b.length := by rw [hb.1]; exact hi
  have hg : b.getD i [] = b[i] := by
    simp [List.getD_eq_getElem?_getD, List.getElem?_eq_getElem hlen]
  rw [hg]
  exact hb.2 _ (List.getElem_mem hlen)

lemma cell_set_cell_same {b : Board} {r c : Nat} {p : Player}
    (hr : r < b.length) (hc : c < (b.getD r []).length) :
    cell (set_cell b r c p) r c = some p := by
  unfold cell set_cell
  have h1 : (b.set r ((b.getD r []).set c (some p))).getD r []
      = (b.getD r []).set c (some p) := by
    simp [List.getD_eq_getElem?_getD, List.getElem?_set_self hr]
  rw [h1]
  have hc2 : c < (b[r]?.getD []).length := by
    simpa [List.getD_eq_getElem?_getD] using hc
  simp [List.getD_eq_getElem?_getD, List.getElem?_set_self hc2]

lemma cell_set_cell_ne {b : Board} {r c : Nat} {p : Player} {i j : Nat}
    (hr : r < b.length) (hne : ¬(i = r ∧ j = c)) :
    cell (set_cell b r c p) i j = cell b i j := by
  unfold cell set_cell
  by_cases hi : i = r
  · subst hi
    have hj : j ≠ c := fun hj => hne ⟨rfl, hj⟩
    have h1 : (b.set i ((b.getD i []).set c (some p))).getD i []
        = (b.getD i []).set c (some p) := by
      simp [List.getD_eq_getElem?_getD, List.getElem?_set_self hr]
    rw [h1]
    simp [List.getD_eq_getElem?_getD, List.getElem?_set_ne (Ne.symm hj)]
  · have h1 : (b.set r ((b.getD r []).set c (some p))).getD i []
        = b.getD i [] := by
      simp [List.getD_eq_getElem?_getD, List.getElem?_set_ne (fun hh => hi (hh.symm))]
    rw [h1]

/-- C2: `play_move` is a functional update — on failure the returned
board is the input board; on success the returned board holds the
mark of the moving player at the target cell, agrees with the input board on
every other cell, and is still a 3x3 grid. -/
theorem play_move_functional_update (b : Board) (row col : Int) (p : Player)
    (hb : WF b) :
    ((play_move b row col p).2 ≠ none → (play_move b row col p).1 = b)
    ∧ ((play_move b row col p).2 = none →
        cell (play_move b row col p).1 row.toNat col.toNat = some p
        ∧ (∀ i j : Nat, ¬(i = row.toNat ∧ j = col.toNat) →
            cell (play_move b row col p).1 i j = cell b i j)
        ∧ WF (play_move b row col p).1) := by
  refine ⟨play_move_failure_frame, ?_⟩
  intro hs
  have hpair : play_move b row col p = ((play_move b row col p).1, none) := by
    rw [← hs]
  obtain ⟨hin, hempty, hp, hb2⟩ := play_move_success hpair
  obtain ⟨hin1, hin2, hin3, hin4⟩ := hin
  have hrlt : row.toNat < b.length := by rw [hb.1]; omega
  have hclt : col.toNat < (b.getD row.toNat []).length := by
    rw [WF_row_length hb (by omega)]; omega
  rw [hb2]
  refine ⟨cell_set_cell_same hrlt hclt, fun i j hne => cell_set_cell_ne hrlt hne, ?_⟩
  constructor
  · simp [set_cell, hb.1]
  · intro rr hrr
    rcases List.mem_or_eq_of_mem_set hrr with h | rfl
    · exact hb.2 _ h
    · rw [List.length_set]
      exact WF_row_length hb (by omega)

/-- C2 witness: the successful move X at (1,2) on the empty board —
the target cell now holds X, a different cell is unchanged, and the
rejected out-of-bounds move returns the input board. -/
theorem play_move_functional_update_witness :
    cell (play_move initial_board 1 2 Player.X).1 1 2 = some Player.X
    ∧ cell (play_move initial_board 1 2 Player.X).1 0 0 = cell initial_board 0 0
    ∧ (play_move initial_board 3 0 Player.X).1 = initial_board := by
  have h := play_move_functional_update initial_board 1 2 Player.X (by decide)
  have h2 := play_move_functional_update initial_board 3 0 Player.X (by decide)
  exact ⟨(h.2 (by decide)).1, (h.2 (by decide)).2.1 0 0 (by decide),
    h2.1 (by decide)⟩

lemma sum_map_set (f : List Cell → Nat) (b : Board) (r : Nat)
    (row2 : List Cell) (hr : r < b.length) :
    ((b.set r row2).map f).sum + f (b.getD r []) = (b.map f).sum + f row2 := by
  induction b generalizing r with
  | nil => simp at hr
  | cons x l ih =>
    cases r with
    | zero => simp [List.set]; omega
    | succ r =>
      have hr2 : r < l.length := by simpa using hr
      have := ih r hr2
      simp only [List.set, List.map_cons, List.sum_cons, List.getD_cons_succ]
      omega

lemma count_marks_set_cell (q p : Player) (b : Board) (r c : Nat)
    (hr : r < b.length) (hc : c < (b.getD r []).length)
    (hempty : cell b r c = none) :
    count_marks q (set_cell b r c p) =
      count_marks q b + (if p = q then 1 else 0) := by
  unfold count_marks set_cell cell at *
  have hsum := sum_map_set (fun row => row.countP (fun x => x == some q)) b r
    ((b.getD r []).set c (some p)) hr
  generalize hR : b.getD r [] = R at *
  have hgc : R[c] = none := by
    rw [List.getD_eq_getElem?_getD, List.getElem?_eq_getElem hc,
      Option.getD_some] at hempty
    exact hempty
  have hcount := List.countP_set (fun x => x == some q) R c (some p) hc
  rw [hgc] at hcount
  have hnone : ((none : Cell) == some q) = false := rfl
  rw [hnone] at hcount
  have hpq : ((some p : Cell) == some q) = decide (p = q) := by
    cases p <;> cases q <;> rfl
  rw [hpq] at hcount
  simp only [Bool.false_eq_true, if_false, Nat.sub_zero, decide_eq_true_eq]
    at hcount
  by_cases hpq2 : p = q <;> simp only [hpq2, if_true, if_false] at * <;> omega

lemma WF_set_cell {b : Board} (hb : WF b) {r : Nat} (hr : r < 3) (c : Nat)
    (p : Player) : WF (set_cell b r c p) := by
  constructor
  · simp [set_cell, hb.1]
  · intro rr hrr
    rcases List.mem_or_eq_of_mem_set hrr with h | rfl
    · exact hb.2 _ h
    · rw [List.length_set]
      exact WF_row_length hb hr

theorem turn_order_invariant (b : Board) (h : Reachable b) :
    (count_marks Player.X b = count_marks Player.O b ∨
      count_marks Player.X b = count_marks Player.O b + 1)
    ∧ WF b := by
  induction h with
  | init => exact ⟨Or.inl (by decide), by decide⟩
  | step hr hplay ih =>
    rename_i b0 row col p b2
    obtain ⟨hcount, hwf⟩ := ih
    obtain ⟨hin, hempty, hp, rfl⟩ := play_move_success hplay
    obtain ⟨hin1, hin2, hin3, hin4⟩ := hin
    have hrlt : row.toNat < b0.length := by rw [hwf.1]; omega
    have hclt : col.toNat < (b0.getD row.toNat []).length := by
      rw [WF_row_length hwf (by omega)]; omega
    have hX := count_marks_set_cell Player.X p b0 row.toNat col.toNat hrlt hclt hempty
    have hO := count_marks_set_cell Player.O p b0 row.toNat col.toNat hrlt hclt hempty
    refine ⟨?_, WF_set_cell hwf (by omega) _ _⟩
    unfold get_next_player at hp
    by_cases hlt : count_marks Player.O b0 < count_marks Player.X b0
    · rw [if_pos hlt] at hp
      subst hp
      simp only [if_true, if_false] at hX hO
      simp at hX hO
      omega
    · rw [if_neg hlt] at hp
      subst hp
      simp at hX hO
      omega

/-- C5 witness: the board reached by the single successful move X at
(0,0) satisfies the turn-order invariant and is 3x3. -/
theorem turn_order_invariant_witness :
    (count_marks Player.X
        [[some Player.X, none, none], [none, none, none], [none, none, none]]
      = count_marks Player.O
        [[some Player.X, none, none], [none, none, none], [none, none, none]]
      ∨ count_marks Player.X
        [[some Player.X, none, none], [none, none, none], [none, none, none]]
      = count_marks Player.O
        [[some Player.X, none, none], [none, none, none], [none, none, none]] + 1)
    ∧ WF [[some Player.X, none, none], [none, none, none], [none, none, none]] :=
  turn_order_invariant
    [[some Player.X, none, none], [none, none, none], [none, none, none]]
    (@Reachable.step initial_board 0 0 Player.X
      [[some Player.X, none, none], [none, none, none], [none, none, none]]
      Reachable.init (by decide))

/-- C7: the sequence (X,0,0),(O,1,0),(X,0,1),(O,1,1),(X,0,2) from the
initial board is five successful `play_move` calls; the resulting board
has status `WINNER_X` and its row 0 is [X, X, X]. -/
theorem winning_sequence_round_trip :
    applyMoves initial_board
        [(Player.X, 0, 0), (Player.O, 1, 0), (Player.X, 0, 1),
         (Player.O, 1, 1), (Player.X, 0, 2)]
      = some [[some Player.X, some Player.X, some Player.X],
              [some Player.O, some Player.O, none],
              [none, none, none]]
    ∧ get_game_status
        [[some Player.X, some Player.X, some Player.X],
         [some Player.O, some Player.O, none],
         [none, none, none]]
      = GameStatus.WINNER_X
    ∧ ([[some Player.X, some Player.X, some Player.X],
        [some Player.O, some Player.O, none],
        [none, none, none]] : Board).headD []
      = [some Player.X, some Player.X, some Player.X] := by
  decide

/-- C8: the nine-move sequence X(0,0) O(0,1) X(0,2) O(1,1) X(1,0)
O(1,2) X(2,1) O(2,0) X(2,2) from the initial board is nine successful
`play_move` calls; the status of the final board is `DRAW` and
`check_winner` finds no winner. -/
theorem draw_sequence_round_trip :
    applyMoves initial_board
        [(Player.X, 0, 0), (Player.O, 0, 1), (Player.X, 0, 2),
         (Player.O, 1, 1), (Player.X, 1, 0), (Player.O, 1, 2),
         (Player.X, 2, 1), (Player.O, 2, 0), (Player.X, 2, 2)]
      = some [[some Player.X, some Player.O, some Player.X],
              [some Player.X, some Player.O, some Player.O],
              [some Player.O, some Player.X, some Player.X]]
    ∧ get_game_status
        [[some Player.X, some Player.O, some Player.X],
         [some Player.X, some Player.O, some Player.O],
         [some Player.O, some Player.X, some Player.X]]
      = GameStatus.DRAW
    ∧ check_winner
        [[some Player.X, some Player.O, some Player.X],
         [some Player.X, some Player.O, some Player.O],
         [some Player.O, some Player.X, some Player.X]]
      = none := by
  decide

lemma cell_initial_board (i j : Nat) : cell initial_board i j = none := by
  unfold cell initial_board
  rcases i with _ | _ | _ | i <;> rcases j with _ | _ | _ | j <;> rfl

/-- C10: `start_game` never reads the `first_player` field of the request — any
two create requests produce identical results — and on the initial
board the next player is X, so any in-bounds opening move by O fails
with `wrongTurn` naming X. -/
theorem start_game_ignores_first_player (store : Store)
    (req1 req2 : GameCreateRequest) (now : Nat) (row col : Int)
    (h : in_bounds row col) :
    start_game store req1 now = start_game store req2 now
    ∧ get_next_player initial_board = Player.X
    ∧ play_move initial_board row col Player.O
        = (initial_board, some (MoveError.wrongTurn Player.X)) := by
  obtain ⟨h1, h2, h3, h4⟩ := h
  refine ⟨rfl, by decide, ?_⟩
  unfold play_move
  rw [if_neg (by omega)]
  rw [if_neg (by simp [cell_initial_board])]
  have hnext : get_next_player initial_board = Player.X := by decide
  simp [hnext]

/-- C10 witness: a request asking for `first_player = O` creates the
same game as one asking for X, and the opening move by O at (0,0) is
rejected with `wrongTurn` X. -/
theorem start_game_ignores_first_player_witness :
    start_game [] { first_player := some Player.O } 0
      = start_game [] { first_player := some Player.X } 0
    ∧ get_next_player initial_board = Player.X
    ∧ play_move initial_board 0 0 Player.O
        = (initial_board, some (MoveError.wrongTurn Player.X)) :=
  start_game_ignores_first_player [] { first_player := some Player.O }
    { first_player := some Player.X } 0 0 0 (by decide)

lemma terminal_cond {s : GameStatus} (ht : terminal s) :
    (s == GameStatus.WINNER_X) = true ∨ (s == GameStatus.WINNER_O) = true
      ∨ (s == GameStatus.DRAW) = true := by
  rcases ht with h | h | h <;> simp [h]

lemma make_move_finished {store : Store} {gid : Int} {g : GameRec}
    (hg : get_game store gid = some g) (ht : terminal g.status)
    (req : GameMoveRequest) (now : Nat) :
    make_move store gid req now = (store, some ApiError.gameFinished) := by
  unfold make_move
  simp only [hg]
  rw [if_pos (terminal_cond ht)]

lemma make_move_cases (store : Store) (gid : Int) (req : GameMoveRequest)
    (now : Nat) :
    (make_move store gid req now).1 = store
    ∨ (make_move store gid req now).2 = none := by
  unfold make_move
  cases hg : get_game store gid with
  | none => left; rfl
  | some game =>
    by_cases hterm : game.status = GameStatus.WINNER_X
        ∨ game.status = GameStatus.WINNER_O ∨ game.status = GameStatus.DRAW
    · left; rcases hterm with h | h | h <;> simp [h]
    · rcases hpm : play_move game.board req.row req.col req.player with ⟨b2, err⟩
      cases err with
      | some e => left; simp [hterm, hpm]
      | none => right; simp [hterm, hpm]

lemma find?_replaceFirst_ne {store : Store} {gid gid' : Int} (hne : gid ≠ gid')
    (f : GameRec → GameRec) (hf : ∀ g, (f g).id = g.id) :
    (replaceFirst (fun g => g.id == gid') f store).find? (fun g => g.id == gid)
      = store.find? (fun g => g.id == gid) := by
  induction store with
  | nil => rfl
  | cons g rest ih =>
    by_cases hg : (g.id == gid') = true
    · have hgid : g.id = gid' := by simpa using hg
      have h1 : ((f g).id == gid) = false := by
        rw [hf g, hgid]
        simpa using fun h => hne h.symm
      have h2 : (g.id == gid) = false := by
        rw [hgid]
        simpa using fun h => hne h.symm
      simp only [replaceFirst, hg, if_true, List.find?_cons, h1, h2]
    · simp only [replaceFirst, hg, Bool.false_eq_true, if_false, List.find?_cons]
      cases h3 : (g.id == gid) <;> simp [ih]

lemma make_move_preserves_finished {store : Store} {gid : Int} {g : GameRec}
    (hg : get_game store gid = some g) (ht : terminal g.status)
    (gid' : Int) (req : GameMoveRequest) (now : Nat) :
    get_game (make_move store gid' req now).1 gid = some g := by
  unfold make_move
  cases hg2 : get_game store gid' with
  | none => simpa using hg
  | some game =>
    by_cases hterm : game.status = GameStatus.WINNER_X
        ∨ game.status = GameStatus.WINNER_O ∨ game.status = GameStatus.DRAW
    · rcases hterm with h | h | h <;> simpa [h] using hg
    · have hne : gid ≠ gid' := by
        intro heq
        subst heq
        rw [hg] at hg2
        cases hg2
        exact hterm ht
      rcases hpm : play_move game.board req.row req.col req.player with ⟨b2, err⟩
      cases err with
      | some e => simpa [hterm, hpm] using hg
      | none =>
        simp only [hpm]
        have hgoal : get_game (update_game store gid' (game.moves ++ [req]) b2
            (get_game_status b2)
            (if get_game_status b2 == GameStatus.WINNER_X then some Player.X
             else if get_game_status b2 == GameStatus.WINNER_O then some Player.O
             else none)
            (if get_game_status b2 == GameStatus.WINNER_X
                ∨ get_game_status b2 == GameStatus.WINNER_O
                ∨ get_game_status b2 == GameStatus.DRAW then some now
             else none)) gid = some g := by
          unfold update_game get_game
          refine Eq.trans ?_ hg
          exact find?_replaceFirst_ne hne _ (fun g0 => rfl)
        simpa [hterm] using hgoal

lemma apply_calls_preserves_finished {gid : Int} {g : GameRec}
    (ht : terminal g.status) :
    ∀ (calls : List (Int × GameMoveRequest × Nat)) (store : Store),
      get_game store gid = some g →
      get_game (apply_calls store calls) gid = some g := by
  intro calls
  induction calls with
  | nil => intro store hg; exact hg
  | cons c rest ih =>
    intro store hg
    exact ih _ (make_move_preserves_finished hg ht c.1 c.2.1 c.2.2)

/-- C6: a `make_move` call on a game whose stored status is terminal
fails with `gameFinished` before the rules engine can run; every
rejected move leaves the store unchanged; and the stored record of a finished
game survives any sequence of further `make_move` calls unchanged. -/
theorem finished_games_are_absorbing (store : Store) (gid : Int) (req : GameMoveRequest) (now : Nat)
    (g : GameRec) (calls : List (Int × GameMoveRequest × Nat))
    (hg : get_game store gid = some g) (ht : terminal g.status) :
    make_move store gid req now = (store, some ApiError.gameFinished)
    ∧ (∀ (store2 : Store) (gid2 : Int) (req2 : GameMoveRequest) (now2 : Nat)
        (e : ApiError),
        (make_move store2 gid2 req2 now2).2 = some e →
        (make_move store2 gid2 req2 now2).1 = store2)
    ∧ get_game (apply_calls store calls) gid = some g := by
  refine ⟨make_move_finished hg ht req now, ?_,
    apply_calls_preserves_finished ht calls store hg⟩
  intro store2 gid2 req2 now2 e h
  rcases make_move_cases store2 gid2 req2 now2 with h1 | h1
  · exact h1
  · rw [h1] at h; cases h


/-- C6 witness: a store holding one finished game (X already won);
a further move request is answered `gameFinished`, rejected moves do
not touch the store, and a two-call sequence leaves the record
intact. -/
theorem finished_games_are_absorbing_witness :
    make_move [finished_game_rec] 1 { player := Player.O, row := 1, col := 2 } 5
      = ([finished_game_rec], some ApiError.gameFinished)
    ∧ (∀ (store2 : Store) (gid2 : Int) (req2 : GameMoveRequest) (now2 : Nat)
        (e : ApiError),
        (make_move store2 gid2 req2 now2).2 = some e →
        (make_move store2 gid2 req2 now2).1 = store2)
    ∧ get_game
        (apply_calls [finished_game_rec]
          [(1, { player := Player.O, row := 1, col := 2 }, 7),
           (1, { player := Player.O, row := 2, col := 2 }, 9)])
        1
      = some finished_game_rec :=
  finished_games_are_absorbing [finished_game_rec] 1
    { player := Player.O, row := 1, col := 2 } 5 finished_game_rec
    [(1, { player := Player.O, row := 1, col := 2 }, 7),
     (1, { player := Player.O, row := 2, col := 2 }, 9)]
    (by decide) (Or.inl rfl)

lemma orderedInsert_of_forall_not (x : GameRec) :
    ∀ l : Store, (∀ y ∈ l, ¬ (y.id ≤ x.id)) →
      List.orderedInsert (fun a b => b.id ≤ a.id) x l = l ++ [x] := by
  intro l
  induction l with
  | nil => intro _; rfl
  | cons y rest ih =>
    intro h
    rw [List.orderedInsert, if_neg (h y (by simp)), ih (fun z hz => h z (by simp [hz]))]
    simp

lemma insertionSort_desc_eq_reverse :
    ∀ l : Store, l.Pairwise (fun a b => a.id < b.id) →
      List.insertionSort (fun a b : GameRec => b.id ≤ a.id) l = l.reverse := by
  intro l h
  induction l with
  | nil => rfl
  | cons g rest ih =>
    rw [List.insertionSort, ih (List.Pairwise.of_cons h),
      orderedInsert_of_forall_not g rest.reverse
        (fun y hy => by
          have := List.rel_of_pairwise_cons h (List.mem_reverse.mp hy)
          omega),
      List.reverse_cons]

/-- C9: `list_games` orders stored games newest-first (by id
descending), skips the first `offset`, returns at most `limit` of the
rest, and `list_game_history` projects them to summaries; on a store
whose ids increase in insertion order this is exactly the reversed
store paginated. -/
theorem list_games_newest_first_paginated (store : Store) (limit offset : Nat)
    (hinc : store.Pairwise (fun a b => a.id < b.id)) :
    list_game_history store limit offset
      = ((store.reverse.drop offset).take limit).map toHistoryItem
    ∧ (list_game_history store limit offset).length ≤ limit
    ∧ List.Pairwise (fun a b : GameHistoryItem => b.id ≤ a.id)
        (list_game_history store limit offset) := by
  refine ⟨?_, ?_, ?_⟩
  · unfold list_game_history list_games
    rw [insertionSort_desc_eq_reverse store hinc]
  · unfold list_game_history list_games
    rw [List.length_map]
    exact List.length_take_le _ _
  · unfold list_game_history list_games
    haveI hT : IsTotal GameRec (fun a b => b.id ≤ a.id) :=
      ⟨fun a b => Int.le_total b.id a.id⟩
    haveI hTr : IsTrans GameRec (fun a b => b.id ≤ a.id) :=
      ⟨fun a b c hab hbc => le_trans hbc hab⟩
    have hs := List.sorted_insertionSort (fun a b : GameRec => b.id ≤ a.id) store
    have hs2 : List.Pairwise (fun a b : GameRec => b.id ≤ a.id)
        (((List.insertionSort (fun a b : GameRec => b.id ≤ a.id) store).drop
          offset).take limit) :=
      hs.sublist ((List.take_sublist _ _).trans (List.drop_sublist _ _))
    exact hs2.map _ (fun a b hab => hab)

/-- C9 witness: with 5 stored games, `list_game_history` with
`limit = 2, offset = 0` returns exactly the summaries of the two most
recently created games (ids 5 and 4), in that order. -/
theorem list_games_newest_first_paginated_witness :
    (list_game_history sample_store 2 0
      = ((sample_store.reverse.drop 0).take 2).map toHistoryItem
    ∧ (list_game_history sample_store 2 0).length ≤ 2
    ∧ List.Pairwise (fun a b : GameHistoryItem => b.id ≤ a.id)
        (list_game_history sample_store 2 0))
    ∧ list_game_history sample_store 2 0
      = [{ id := 5, status := GameStatus.IN_PROGRESS, winner := none,
           created_at := some 5, finished_at := none },
         { id := 4, status := GameStatus.IN_PROGRESS, winner := none,
           created_at := some 4, finished_at := none }] :=
  ⟨list_games_newest_first_paginated sample_store 2 0 (by decide), by decide⟩
